import Mathlib

/-!
Shallow embedding of `text2sql/data/dataset_readers/grammar_based_spans.py`
(class `GrammarBasedSpansText2SqlDatasetReader`).

The embedding covers the span normalizer `_fix_spans_coverage`, the
action-sequence indexer and catalog construction inside `text_to_instance`,
the orchestration of `text_to_instance` itself (including its failure modes),
and the constructor validation in `__init__`.

External collaborators are abstracted exactly at the interfaces the source
consumes them through: the tokenizer is a function `String → List String`,
and the grammar world engine is a structure with the two operations
`get_action_sequence_and_all_actions` and `is_global_rule`. Fallible Python
code is modelled with `Except PyError`; a raised exception is `.error e`,
and the explicit `return None` of the source is `.ok none`.
-/

/-- The Python runtime/configuration errors the embedded code can raise:
`TypeError` (iterating over `None`), `ValueError` (tuple unpacking of a
split with the wrong number of parts), `KeyError` (failed dict lookup),
`UnboundLocalError` (reading a local variable that was never assigned),
and `ConfigurationError` (raised explicitly by `__init__`). -/
inductive PyError where
  | typeError
  | valueError
  | keyError (key : String)
  | unboundLocal (name : String)
  | configurationError
  deriving DecidableEq, Repr

/-- Lines 270-283, `_fix_spans_coverage(spans, source_length)`: subtract one
from every end index to turn half-open spans inclusive, collect the results
into a set, then add every singleton span `(i, i)` for `i` in
`range(source_length)`. No validation of the input spans is performed, so
indices are modelled as unbounded integers. -/
def _fix_spans_coverage (spans : List (Int × Int)) (source_length : Nat) : Finset (Int × Int) :=
  let new_spans : List (Int × Int) := spans.map (fun p => (p.1, p.2 - 1))
  let spans_set : Finset (Int × Int) := new_spans.toFinset
  (List.range source_length).foldl (fun s i => insert (((i : Nat) : Int), ((i : Nat) : Int)) s) spans_set

/-- Lines 229-230, the dict comprehension
`action_map = \x7baction.rule: i for i, action in enumerate(valid_actions_field.field_list)\x7d`:
a Python dict built by inserting the pairs in order, so an entry written at a
later position silently overwrites an earlier one with the same key. The
resulting dict is modelled as a lookup function `String → Option Nat`. -/
def action_map (catalog : List String) : String → Option Nat :=
  catalog.enum.foldl (fun d p => fun k => if k = p.2 then some p.1 else d k) (fun _ => none)

/-- Proof-side companion of `action_map`: the position (counted from `n`) of
the last occurrence of `k` in `l`, or `none` when `k` does not occur. -/
def lastIdxFrom (l : List String) (n : Nat) (k : String) : Option Nat :=
  match l with
  | [] => none
  | a :: rest =>
    match lastIdxFrom rest (n + 1) k with
    | some j => some j
    | none => if a = k then some n else none

/-- Lines 232-233, the loop
`for production_rule in action_sequence: index_fields.append(IndexField(action_map[production_rule], ...))`:
each gold rule is looked up in the dict; a rule absent from the dict raises
`KeyError` at the first offending element. -/
def indexActionSequence (catalog : List String) : List String → Except PyError (List Int)
  | [] => .ok []
  | r :: rest =>
    match action_map catalog r with
    | none => .error (.keyError r)
    | some i =>
      match indexActionSequence catalog rest with
      | .error e => .error e
      | .ok idxs => .ok ((i : Int) :: idxs)

/-- Lines 232-239: index the gold sequence, then
`if not action_sequence: index_fields = [IndexField(-1, valid_actions_field)]`
replaces the (necessarily empty) index list of an empty gold sequence with
the single sentinel entry `-1`. -/
def indexFieldsOf (catalog : List String) (action_sequence : List String) : Except PyError (List Int) :=
  match indexActionSequence catalog action_sequence with
  | .error e => .error e
  | .ok idxs => .ok (if action_sequence.isEmpty then [(-1 : Int)] else idxs)

/-- One entry of the action catalog (`ProductionRuleField`): the rule string,
the flag returned by `world.is_global_rule(nonterminal)`, and the nonterminal
(the part of the rule string before the arrow marker). -/
structure ProductionRuleField where
  rule : String
  is_global : Bool
  nonterminal : String
  deriving DecidableEq, Repr

/-- Lines 218-224, one iteration of the catalog loop.
`nonterminal, _ = production_rule.split(" ->")` raises `ValueError` unless
the split has exactly two parts. The reassignment
`production_rule = " ".join(production_rule.split(" "))` is the identity on
strings (a Python split on an explicit single-space separator keeps empty
parts, so the join restores the string exactly) and is modelled as such. -/
def mkProductionRuleField (is_global_rule : String → Bool) (production_rule : String) :
    Except PyError ProductionRuleField :=
  match production_rule.splitOn " ->" with
  | [nonterminal, _rhs] =>
    .ok { rule := production_rule
          is_global := is_global_rule nonterminal
          nonterminal := nonterminal }
  | _ => .error .valueError

/-- Lines 216-224: the loop over `all_actions` building the list of
`ProductionRuleField` entries, in catalog order, stopping at the first
malformed rule string. -/
def buildProductionRuleFields (is_global_rule : String → Bool) :
    List String → Except PyError (List ProductionRuleField)
  | [] => .ok []
  | r :: rest =>
    match mkProductionRuleField is_global_rule r with
    | .error e => .error e
    | .ok f =>
      match buildProductionRuleFields is_global_rule rest with
      | .error e => .error e
      | .ok fs => .ok (f :: fs)

/-- The entity-linking dictionary `Dict[str, Dict[str, str]]`. -/
abbrev PrelinkedEntities := List (String × List (String × String))

/-- The grammar world engine (`Text2SqlWorld`), abstracted at exactly the two
operations this file calls on it. `get_action_sequence_and_all_actions`
returns the gold action sequence (`none` signalling no derivation) together
with the full action catalog. -/
structure World where
  get_action_sequence_and_all_actions :
    List String → List (String × String) → List String → Option PrelinkedEntities →
      Option (List String) × List String
  is_global_rule : String → Bool

/-- The assembled `Instance`: the four fields `tokens`, `spans`,
`valid_actions` and `action_sequence`. The span field is the set produced by
`_fix_spans_coverage` (Python set semantics). -/
structure Instance where
  tokens : List String
  spans : Finset (Int × Int)
  valid_actions : List ProductionRuleField
  action_sequence : List Int
  deriving DecidableEq

/-- Lines 215-241: building the catalog fields, the `action_map`, the indexed
gold sequence (keys of the map are the `rule` attributes of the catalog
fields), and finally the `Instance`. -/
def assemble (world : World) (tokens : List String) (fixed_spans : Finset (Int × Int))
    (all_actions : List String) (action_sequence : List String) :
    Except PyError (Option Instance) :=
  match buildProductionRuleFields world.is_global_rule all_actions with
  | .error e => .error e
  | .ok production_rule_fields =>
    match indexFieldsOf (production_rule_fields.map (fun f => f.rule)) action_sequence with
    | .error e => .error e
    | .ok idxs =>
      .ok (some { tokens := tokens
                  spans := fixed_spans
                  valid_actions := production_rule_fields
                  action_sequence := idxs })

/-- Lines 184-241, `text_to_instance`. Control flow of the source, in order:
tokenize the joined query; call `_fix_spans_coverage(spans, len(tokens))`
unconditionally, which raises `TypeError` when `spans` is `None` (it iterates
over its first argument); when `sql` is not `None`, call the world engine and
apply the keep-if-unparsable policy (`return None` when dropping); when `sql`
is `None`, the locals `all_actions` and `action_sequence` are never assigned,
so the catalog loop raises `UnboundLocalError`; finally build the instance. -/
def text_to_instance (keep_if_unparsable : Bool) (world : World)
    (tokenize : String → List String)
    (query : List String) (derived_cols : List (String × String))
    (derived_tables : List String) (prelinked_entities : Option PrelinkedEntities)
    (sql : Option (List String)) (spans : Option (List (Int × Int))) :
    Except PyError (Option Instance) :=
  let tokens_tokenized := tokenize (" ".intercalate query)
  match spans with
  | none => .error .typeError
  | some spans_list =>
    let fixed_spans := _fix_spans_coverage spans_list tokens_tokenized.length
    match sql with
    | none => .error (.unboundLocal "all_actions")
    | some sql_query =>
      let res := world.get_action_sequence_and_all_actions sql_query derived_cols
        derived_tables prelinked_entities
      match res.1 with
      | none =>
        if keep_if_unparsable then
          assemble world tokens_tokenized fixed_spans res.2 []
        else
          .ok none
      | some action_sequence =>
        assemble world tokens_tokenized fixed_spans res.2 action_sequence

/-- The constructor arguments of `GrammarBasedSpansText2SqlDatasetReader`
(lines 63-77), with the source defaults. -/
structure ReaderArgs where
  schema_path : String
  database_file : Option String := none
  use_all_sql : Bool := false
  use_all_queries : Bool := true
  remove_unneeded_aliases : Bool := false
  use_prelinked_entities : Bool := true
  use_untyped_entities : Bool := true
  cross_validation_split_to_exclude : Option Int := none
  keep_if_unparsable : Bool := false
  lazy : Bool := false
  load_cache : Bool := false
  save_cache : Bool := true
  loading_limit : Int := -1

/-- The state a successfully constructed reader holds (the attributes set in
`__init__`); external resources (database cursor, schema) are out of scope
and the world engine is produced by an abstract builder. -/
structure ReaderState where
  use_all_sql : Bool
  remove_unneeded_aliases : Bool
  use_prelinked_entities : Bool
  keep_if_unparsable : Bool
  use_all_queries : Bool
  load_cache : Bool
  save_cache : Bool
  loading_limit : Int
  cross_validation_split_to_exclude : String
  schema_path : String
  world : World

/-- Python `str()` applied to an optional integer (line 95). -/
def pyStrOfOptInt : Option Int → String
  | none => "None"
  | some i => toString i

/-- Lines 63-112, `__init__`: the attributes are stored, then
`if not self._use_prelinked_entities: raise ConfigurationError(...)` fires
before any external resource (database, schema, world) is touched. The
builders for those external resources are abstracted as the `mkWorld`
parameter, applied only on the success path. -/
def readerInit (mkWorld : String → Bool → Bool → World) (args : ReaderArgs) :
    Except PyError ReaderState :=
  if args.use_prelinked_entities = false then
    .error .configurationError
  else
    .ok { use_all_sql := args.use_all_sql
          remove_unneeded_aliases := args.remove_unneeded_aliases
          use_prelinked_entities := args.use_prelinked_entities
          keep_if_unparsable := args.keep_if_unparsable
          use_all_queries := args.use_all_queries
          load_cache := args.load_cache
          save_cache := args.save_cache
          loading_limit := args.loading_limit
          cross_validation_split_to_exclude := pyStrOfOptInt args.cross_validation_split_to_exclude
          schema_path := args.schema_path
          world := mkWorld args.schema_path args.use_prelinked_entities args.use_untyped_entities }


/-! ### Helper lemmas about the dict comprehension `action_map` -/

theorem foldl_dict_eq_lastIdxFrom (l : List String) :
    ∀ (n : Nat) (d : String → Option Nat) (k : String),
      (List.enumFrom n l).foldl (fun d p => fun k => if k = p.2 then some p.1 else d k) d k =
        match lastIdxFrom l n k with
        | some i => some i
        | none => d k := by
  induction l with
  | nil => intro n d k; rfl
  | cons a rest ih =>
    intro n d k
    have hstep : (List.enumFrom n (a :: rest)).foldl
        (fun d p => fun k => if k = p.2 then some p.1 else d k) d k =
        (List.enumFrom (n + 1) rest).foldl
          (fun d p => fun k => if k = p.2 then some p.1 else d k)
          (fun k => if k = a then some n else d k) k := rfl
    have hcons : lastIdxFrom (a :: rest) n k =
        match lastIdxFrom rest (n + 1) k with
        | some j => some j
        | none => if a = k then some n else none := rfl
    rw [hstep, ih, hcons]
    cases hrec : lastIdxFrom rest (n + 1) k with
    | some j => rfl
    | none =>
      by_cases hk : k = a
      · subst hk; simp
      · have hak : ¬ a = k := fun h => hk h.symm
        simp [hk, hak]

theorem action_map_eq_lastIdxFrom (catalog : List String) (k : String) :
    action_map catalog k = lastIdxFrom catalog 0 k := by
  have h := foldl_dict_eq_lastIdxFrom catalog 0 (fun _ => none) k
  have henum : catalog.enum = List.enumFrom 0 catalog := rfl
  unfold action_map
  rw [henum, h]
  cases lastIdxFrom catalog 0 k <;> rfl

theorem lastIdxFrom_le_getElem (l : List String) :
    ∀ (n : Nat) (k : String) (i : Nat), lastIdxFrom l n k = some i →
      n ≤ i ∧ l[i - n]? = some k := by
  induction l with
  | nil => intro n k i h; exact absurd h (by simp [lastIdxFrom])
  | cons a rest ih =>
    intro n k i h
    have hcons : lastIdxFrom (a :: rest) n k =
        match lastIdxFrom rest (n + 1) k with
        | some j => some j
        | none => if a = k then some n else none := rfl
    rw [hcons] at h
    cases hrec : lastIdxFrom rest (n + 1) k with
    | some j =>
      rw [hrec] at h
      have hj : j = i := Option.some.inj h
      subst hj
      obtain ⟨hle, hget⟩ := ih (n + 1) k j hrec
      refine ⟨by omega, ?_⟩
      have hsub : j - n = (j - (n + 1)) + 1 := by omega
      rw [hsub, List.getElem?_cons_succ]
      exact hget
    | none =>
      rw [hrec] at h
      by_cases hak : a = k
      · rw [if_pos hak] at h
        have hni : n = i := Option.some.inj h
        subst hni
        exact ⟨Nat.le_refl n, by simp [Nat.sub_self, hak]⟩
      · rw [if_neg hak] at h
        exact absurd h (by simp)

theorem lastIdxFrom_isSome_of_mem (l : List String) :
    ∀ (n : Nat) (k : String), k ∈ l → (lastIdxFrom l n k).isSome := by
  induction l with
  | nil => intro n k h; simp at h
  | cons a rest ih =>
    intro n k hk
    have hcons : lastIdxFrom (a :: rest) n k =
        match lastIdxFrom rest (n + 1) k with
        | some j => some j
        | none => if a = k then some n else none := rfl
    rw [hcons]
    cases hrec : lastIdxFrom rest (n + 1) k with
    | some j => rfl
    | none =>
      rcases List.mem_cons.mp hk with h | h
      · rw [if_pos h.symm]; rfl
      · have hsome := ih (n + 1) k h
        rw [hrec] at hsome
        simp at hsome

theorem lastIdxFrom_is_last (l : List String) :
    ∀ (n : Nat) (k : String) (i : Nat), lastIdxFrom l n k = some i →
      ∀ j, i < j → l[j - n]? ≠ some k := by
  induction l with
  | nil => intro n k i h; exact absurd h (by simp [lastIdxFrom])
  | cons a rest ih =>
    intro n k i h j hij
    have hcons : lastIdxFrom (a :: rest) n k =
        match lastIdxFrom rest (n + 1) k with
        | some j => some j
        | none => if a = k then some n else none := rfl
    rw [hcons] at h
    cases hrec : lastIdxFrom rest (n + 1) k with
    | some j' =>
      rw [hrec] at h
      have hj' : j' = i := Option.some.inj h
      subst hj'
      have hge := (lastIdxFrom_le_getElem rest (n + 1) k j' hrec).1
      have hsub : j - n = (j - (n + 1)) + 1 := by omega
      rw [hsub, List.getElem?_cons_succ]
      exact ih (n + 1) k j' hrec j hij
    | none =>
      rw [hrec] at h
      by_cases hak : a = k
      · rw [if_pos hak] at h
        have hni : n = i := Option.some.inj h
        subst hni
        have hsub : j - n = (j - (n + 1)) + 1 := by omega
        rw [hsub, List.getElem?_cons_succ]
        intro hmem
        have hkrest : k ∈ rest := List.getElem?_mem hmem
        have hsome := lastIdxFrom_isSome_of_mem rest (n + 1) k hkrest
        rw [hrec] at hsome
        simp at hsome
      · rw [if_neg hak] at h
        exact absurd h (by simp)

theorem action_map_some_getElem (catalog : List String) (k : String) (i : Nat)
    (h : action_map catalog k = some i) : catalog[i]? = some k := by
  rw [action_map_eq_lastIdxFrom] at h
  have hfull := (lastIdxFrom_le_getElem catalog 0 k i h).2
  simpa using hfull

theorem action_map_isSome_of_mem (catalog : List String) (k : String) (h : k ∈ catalog) :
    ∃ i, action_map catalog k = some i := by
  rw [action_map_eq_lastIdxFrom]
  exact Option.isSome_iff_exists.mp (lastIdxFrom_isSome_of_mem catalog 0 k h)

theorem action_map_none_of_not_mem (catalog : List String) (k : String) (h : k ∉ catalog) :
    action_map catalog k = none := by
  cases hm : action_map catalog k with
  | none => rfl
  | some i => exact absurd (List.getElem?_mem (action_map_some_getElem catalog k i hm)) h

theorem action_map_is_last (catalog : List String) (k : String) (i : Nat)
    (h : action_map catalog k = some i) : ∀ j, i < j → catalog[j]? ≠ some k := by
  rw [action_map_eq_lastIdxFrom] at h
  intro j hij
  have hlast := lastIdxFrom_is_last catalog 0 k i h j hij
  simpa using hlast

theorem action_map_eq_some_of_last (catalog : List String) (k : String) (i : Nat)
    (hget : catalog[i]? = some k)
    (hlast : ∀ j, j < catalog.length → i < j → catalog[j]? ≠ some k) :
    action_map catalog k = some i := by
  obtain ⟨i', hi'⟩ := action_map_isSome_of_mem catalog k (List.getElem?_mem hget)
  have hget' := action_map_some_getElem catalog k i' hi'
  rcases lt_trichotomy i i' with h | h | h
  · have hlen : i' < catalog.length := (List.getElem?_eq_some.mp hget').1
    exact absurd hget' (hlast i' hlen h)
  · rw [← h] at hi'; exact hi'
  · exact absurd hget (action_map_is_last catalog k i' hi' i h)

/-! ### Helper lemmas about the indexing loop and the catalog loop -/

theorem indexActionSequence_roundtrip (catalog : List String) (gold : List String)
    (hmem : ∀ r ∈ gold, r ∈ catalog) :
    ∃ idxs : List Int, indexActionSequence catalog gold = .ok idxs ∧
      idxs.map (fun i => catalog[i.toNat]?) = gold.map some := by
  induction gold with
  | nil => exact ⟨[], rfl, rfl⟩
  | cons r rest ih =>
    obtain ⟨i, hi⟩ := action_map_isSome_of_mem catalog r (hmem r (List.mem_cons_self r rest))
    obtain ⟨idxs, hok, hdec⟩ := ih (fun a ha => hmem a (List.mem_cons_of_mem r ha))
    refine ⟨(i : Int) :: idxs, ?_, ?_⟩
    · simp [indexActionSequence, hi, hok]
    · have hri := action_map_some_getElem catalog r i hi
      simp [hdec, hri]

theorem indexActionSequence_missing (catalog : List String) (gold : List String) :
    (∃ r ∈ gold, r ∉ catalog) →
    ∃ key, key ∈ gold ∧ key ∉ catalog ∧
      indexActionSequence catalog gold = .error (.keyError key) := by
  induction gold with
  | nil => intro h; simp at h
  | cons r rest ih =>
    intro hbad
    by_cases hr : r ∈ catalog
    · obtain ⟨r', hmem, hnot⟩ := hbad
      have hrest : ∃ a ∈ rest, a ∉ catalog := by
        rcases List.mem_cons.mp hmem with h | h
        · exact absurd hr (h ▸ hnot)
        · exact ⟨r', h, hnot⟩
      obtain ⟨key, hkmem, hknot, herr⟩ := ih hrest
      obtain ⟨i, hi⟩ := action_map_isSome_of_mem catalog r hr
      exact ⟨key, List.mem_cons_of_mem r hkmem, hknot, by simp [indexActionSequence, hi, herr]⟩
    · refine ⟨r, List.mem_cons_self r rest, hr, ?_⟩
      have hnone := action_map_none_of_not_mem catalog r hr
      simp [indexActionSequence, hnone]

theorem indexFieldsOf_nil (catalog : List String) : indexFieldsOf catalog [] = .ok [-1] := rfl

theorem buildProductionRuleFields_ok (g : String → Bool) (actions : List String) :
    (∀ r ∈ actions, (r.splitOn " ->").length = 2) →
    ∃ fs, buildProductionRuleFields g actions = .ok fs ∧
      fs.map (fun f => f.rule) = actions := by
  induction actions with
  | nil => intro _; exact ⟨[], rfl, rfl⟩
  | cons r rest ih =>
    intro hwf
    obtain ⟨fs, hok, hmap⟩ := ih (fun a ha => hwf a (List.mem_cons_of_mem r ha))
    have hr := hwf r (List.mem_cons_self r rest)
    obtain ⟨x, y, hxy⟩ : ∃ x y, r.splitOn " ->" = [x, y] := by
      cases hs : r.splitOn " ->" with
      | nil => rw [hs] at hr; simp at hr
      | cons x t =>
        cases t with
        | nil => rw [hs] at hr; simp at hr
        | cons y t2 =>
          cases t2 with
          | nil => exact ⟨x, y, rfl⟩
          | cons z t3 => rw [hs] at hr; simp at hr
    refine ⟨⟨r, g x, x⟩ :: fs, ?_, ?_⟩
    · simp [buildProductionRuleFields, mkProductionRuleField, hxy, hok]
    · simp [hmap]

/-! ### Helper lemma about the singleton-span loop -/

theorem mem_foldl_insert_singletons (l : List Nat) :
    ∀ (init : Finset (Int × Int)) (p : Int × Int),
      (p ∈ l.foldl (fun s i => insert (((i : Nat) : Int), ((i : Nat) : Int)) s) init) ↔
        (p ∈ init ∨ ∃ i ∈ l, p = (((i : Nat) : Int), ((i : Nat) : Int))) := by
  induction l with
  | nil => intro init p; simp
  | cons a t ih =>
    intro init p
    rw [List.foldl_cons, ih]
    simp only [Finset.mem_insert, List.mem_cons]
    constructor
    · rintro ((h | h) | ⟨i, hi, hp⟩)
      · exact Or.inr ⟨a, Or.inl rfl, h⟩
      · exact Or.inl h
      · exact Or.inr ⟨i, Or.inr hi, hp⟩
    · rintro (h | ⟨i, (hi | hi), hp⟩)
      · exact Or.inl (Or.inr h)
      · exact Or.inl (Or.inl (hi ▸ hp))
      · exact Or.inr ⟨i, hi, hp⟩

/-! ### Claim theorems -/

/-- C1: for every catalog with pairwise-distinct entries and every gold
sequence drawn entirely from the catalog, the indexing loop succeeds and
looking each produced index back up in the catalog reproduces the gold
sequence exactly, element for element and in order. -/
theorem c1_indexer_roundtrip (catalog gold : List String)
    (hnodup : catalog.Nodup) (hmem : ∀ r ∈ gold, r ∈ catalog) :
    ∃ idxs : List Int, indexActionSequence catalog gold = .ok idxs ∧
      idxs.map (fun i => catalog[i.toNat]?) = gold.map some :=
  indexActionSequence_roundtrip catalog gold hmem

theorem c1_indexer_roundtrip_witness :
    ∃ idxs : List Int,
      indexActionSequence ["A -> B", "A -> C", "B -> d"] ["A -> B", "B -> d"] = .ok idxs ∧
      idxs.map (fun i => ["A -> B", "A -> C", "B -> d"][i.toNat]?) =
        ["A -> B", "B -> d"].map some :=
  c1_indexer_roundtrip ["A -> B", "A -> C", "B -> d"] ["A -> B", "B -> d"]
    (by decide) (by decide)

/-- C4: for every catalog, an empty gold sequence produces exactly the single
sentinel index entry `-1`, never an empty index list. -/
theorem c4_empty_gold_sentinel (catalog : List String) :
    indexFieldsOf catalog [] = .ok [-1] ∧ indexFieldsOf catalog [] ≠ .ok [] := by
  refine ⟨rfl, ?_⟩
  rw [indexFieldsOf_nil]
  simp

/-- C5: for every token-sequence length and every input span list (including
degenerate or out-of-bounds spans, which are not validated), the normalized
set contains `(s, e-1)` for every input span `(s, e)`, contains `(i, i)` for
every `i < L`, and contains nothing else; duplicates are impossible because
the result is a set. -/
theorem c5_fix_spans_coverage_characterization (spans : List (Int × Int)) (L : Nat)
    (p : Int × Int) :
    p ∈ _fix_spans_coverage spans L ↔
      ((∃ s e : Int, (s, e) ∈ spans ∧ p = (s, e - 1)) ∨
        (∃ i : Nat, i < L ∧ p = ((i : Int), (i : Int)))) := by
  simp only [_fix_spans_coverage]
  rw [mem_foldl_insert_singletons]
  constructor
  · rintro (h | ⟨i, hi, hp⟩)
    · left
      rw [List.mem_toFinset, List.mem_map] at h
      obtain ⟨⟨s, e⟩, hmem, hfe⟩ := h
      exact ⟨s, e, hmem, hfe.symm⟩
    · exact Or.inr ⟨i, List.mem_range.mp hi, hp⟩
  · rintro (⟨s, e, hmem, hp⟩ | ⟨i, hi, hp⟩)
    · left
      rw [List.mem_toFinset, List.mem_map]
      exact ⟨(s, e), hmem, hp.symm⟩
    · exact Or.inr ⟨i, List.mem_range.mpr hi, hp⟩

/-- C8: the rule-to-index mapping sends a rule to the index of its last
occurrence in the catalog (later positions silently overwrite earlier ones);
the mapping is injective at every index, and for a duplicate-free catalog of
length N every index below N is hit, so the mapping is a bijection between
the catalog entries and the indices 0 to N-1. -/
theorem c8_action_map_last_occurrence (catalog : List String) :
    (∀ (r : String) (i : Nat), action_map catalog r = some i ↔
        (catalog[i]? = some r ∧ ∀ j, j < catalog.length → i < j → catalog[j]? ≠ some r)) ∧
    (∀ (r₁ r₂ : String) (i : Nat), action_map catalog r₁ = some i →
        action_map catalog r₂ = some i → r₁ = r₂) ∧
    (catalog.Nodup → ∀ i, i < catalog.length →
        ∃ r ∈ catalog, action_map catalog r = some i) := by
  refine ⟨?_, ?_, ?_⟩
  · intro r i
    constructor
    · intro h
      exact ⟨action_map_some_getElem catalog r i h,
        fun j _ hij => action_map_is_last catalog r i h j hij⟩
    · rintro ⟨hget, hlast⟩
      exact action_map_eq_some_of_last catalog r i hget hlast
  · intro r₁ r₂ i h₁ h₂
    have g₁ := action_map_some_getElem catalog r₁ i h₁
    have g₂ := action_map_some_getElem catalog r₂ i h₂
    rw [g₁] at g₂
    exact Option.some.inj g₂
  · intro hnodup i hi
    refine ⟨catalog[i], List.getElem_mem hi, ?_⟩
    apply action_map_eq_some_of_last
    · exact List.getElem?_eq_getElem hi
    · intro j hj hij hget
      rw [List.getElem?_eq_getElem hj] at hget
      have heq : catalog[j] = catalog[i] := Option.some.inj hget
      exact (List.pairwise_iff_getElem.mp hnodup i j hi hj hij) heq.symm

theorem c8_action_map_last_occurrence_witness :
    action_map ["x -> a", "y -> b", "x -> a"] "x -> a" = some 2 :=
  ((c8_action_map_last_occurrence ["x -> a", "y -> b", "x -> a"]).1 "x -> a" 2).mpr
    ⟨by decide, by decide⟩

/-- C2: when keep-if-unparsable is disabled and the grammar engine signals no
derivation, instance assembly (called with a supplied SQL and supplied spans,
so that the grammar engine is actually reached) returns the explicit
no-result signal rather than an instance or an exception. -/
theorem c2_drop_unparsable_returns_none (world : World) (tokenize : String → List String)
    (query : List String) (derived_cols : List (String × String))
    (derived_tables : List String) (prelinked_entities : Option PrelinkedEntities)
    (sql_query : List String) (spans_list : List (Int × Int)) (all_actions : List String)
    (hworld : world.get_action_sequence_and_all_actions sql_query derived_cols derived_tables
        prelinked_entities = (none, all_actions)) :
    text_to_instance false world tokenize query derived_cols derived_tables prelinked_entities
      (some sql_query) (some spans_list) = .ok none := by
  simp [text_to_instance, hworld]

theorem c2_drop_unparsable_returns_none_witness :
    text_to_instance false ⟨fun _ _ _ _ => (none, []), fun _ => false⟩ (fun _ => [])
      ["q"] [] [] none (some ["SELECT"]) (some []) = .ok none :=
  c2_drop_unparsable_returns_none _ _ ["q"] [] [] none ["SELECT"] [] [] rfl

/-- C3: when keep-if-unparsable is enabled and the grammar engine signals no
derivation, an instance is produced; its indexed gold sequence is exactly the
sentinel `[-1]` and its action catalog carries one entry per rule of the
returned all-actions list (so it is non-empty whenever that list is), under
the grammar-engine contract that every returned rule string splits into
exactly two parts at the arrow marker. -/
theorem c3_keep_unparsable_instance (world : World) (tokenize : String → List String)
    (query : List String) (derived_cols : List (String × String))
    (derived_tables : List String) (prelinked_entities : Option PrelinkedEntities)
    (sql_query : List String) (spans_list : List (Int × Int)) (all_actions : List String)
    (hworld : world.get_action_sequence_and_all_actions sql_query derived_cols derived_tables
        prelinked_entities = (none, all_actions))
    (hwf : ∀ r ∈ all_actions, (r.splitOn " ->").length = 2) :
    ∃ inst : Instance,
      text_to_instance true world tokenize query derived_cols derived_tables prelinked_entities
        (some sql_query) (some spans_list) = .ok (some inst) ∧
      inst.action_sequence = [-1] ∧
      inst.valid_actions.map (fun f => f.rule) = all_actions ∧
      (all_actions ≠ [] → inst.valid_actions ≠ []) := by
  obtain ⟨fs, hok, hmap⟩ := buildProductionRuleFields_ok world.is_global_rule all_actions hwf
  refine ⟨⟨tokenize (" ".intercalate query),
      _fix_spans_coverage spans_list (tokenize (" ".intercalate query)).length, fs, [-1]⟩,
    ?_, rfl, hmap, ?_⟩
  · simp [text_to_instance, hworld, assemble, hok, indexFieldsOf_nil]
  · intro hne hfs
    simp only at hfs
    rw [hfs] at hmap
    exact hne hmap.symm

theorem c3_keep_unparsable_instance_witness :
    ∃ inst : Instance,
      text_to_instance true ⟨fun _ _ _ _ => (none, []), fun _ => false⟩ (fun _ => [])
        ["q"] [] [] none (some ["SELECT"]) (some []) = .ok (some inst) ∧
      inst.action_sequence = [-1] ∧
      inst.valid_actions.map (fun f => f.rule) = [] ∧
      (([] : List String) ≠ [] → inst.valid_actions ≠ []) :=
  c3_keep_unparsable_instance _ _ ["q"] [] [] none ["SELECT"] [] [] rfl (by simp)

/-- C6: whenever the gold action sequence contains a rule string that does not
occur in the action catalog, the indexing step raises a hard lookup error
(`KeyError` naming a missing gold rule) and no instance is produced. -/
theorem c6_missing_gold_rule_key_error (keep : Bool) (world : World)
    (tokenize : String → List String) (query : List String)
    (derived_cols : List (String × String)) (derived_tables : List String)
    (prelinked_entities : Option PrelinkedEntities) (sql_query : List String)
    (spans_list : List (Int × Int)) (gold all_actions : List String) (r : String)
    (hworld : world.get_action_sequence_and_all_actions sql_query derived_cols derived_tables
        prelinked_entities = (some gold, all_actions))
    (hwf : ∀ a ∈ all_actions, (a.splitOn " ->").length = 2)
    (hr : r ∈ gold) (hnot : r ∉ all_actions) :
    ∃ key, key ∈ gold ∧ key ∉ all_actions ∧
      text_to_instance keep world tokenize query derived_cols derived_tables prelinked_entities
        (some sql_query) (some spans_list) = .error (.keyError key) := by
  obtain ⟨fs, hok, hmap⟩ := buildProductionRuleFields_ok world.is_global_rule all_actions hwf
  obtain ⟨key, hkmem, hknot, herr⟩ := indexActionSequence_missing all_actions gold ⟨r, hr, hnot⟩
  refine ⟨key, hkmem, hknot, ?_⟩
  simp [text_to_instance, hworld, assemble, hok, hmap, indexFieldsOf, herr]

theorem c6_missing_gold_rule_key_error_witness :
    ∃ key, key ∈ ["q -> x"] ∧ key ∉ ([] : List String) ∧
      text_to_instance false ⟨fun _ _ _ _ => (some ["q -> x"], []), fun _ => false⟩
        (fun _ => []) ["q"] [] [] none (some ["SELECT"]) (some []) =
        .error (.keyError key) :=
  c6_missing_gold_rule_key_error false ⟨fun _ _ _ _ => (some ["q -> x"], []), fun _ => false⟩
    (fun _ => []) ["q"] [] [] none ["SELECT"] [] ["q -> x"] [] "q -> x"
    rfl (by simp) (by simp) (by simp)

/-- C7: evidence for the divergence between spec and code on the no-spans
path. The spec states that the alternate API path (as used by
`read_json_dict`) succeeds without span normalization, but the source calls
`_fix_spans_coverage(None, ...)` unconditionally, which iterates over `None`
and raises `TypeError`; no instance is ever produced on that path. -/
theorem c7_read_json_dict_path_raises :
    text_to_instance false ⟨fun _ _ _ _ => (some [], []), fun _ => false⟩ (fun _ => [])
      ["q"] [] [] none (some ["SELECT"]) none = .error .typeError := rfl

/-- C9: constructing the reader with entity pre-linking disabled fails at
construction time with the configuration error, for every combination of the
other constructor arguments; no reader state is ever produced. -/
theorem c9_init_requires_prelinked_entities (mkWorld : String → Bool → Bool → World)
    (args : ReaderArgs) (h : args.use_prelinked_entities = false) :
    readerInit mkWorld args = .error .configurationError := by
  simp [readerInit, h]

theorem c9_init_requires_prelinked_entities_witness :
    readerInit (fun _ _ _ => ⟨fun _ _ _ _ => (none, []), fun _ => false⟩)
      { schema_path := "schema.csv", use_prelinked_entities := false } =
      .error .configurationError :=
  c9_init_requires_prelinked_entities _ _ rfl

/-- C10 counterexample: the claim states that every invocation with a `None`
SQL argument, for any spans, fails when building the action catalog (the
unbound-local failure). At the concrete input where spans is also `None`,
the call instead fails earlier, with the `TypeError` raised while iterating
the spans argument, which is a different error than the claimed
unbound-local one. -/
theorem c10_counterexample_spans_none :
    text_to_instance false ⟨fun _ _ _ _ => (none, []), fun _ => false⟩ (fun _ => [])
      ["q"] [] [] none none none = .error .typeError ∧
    PyError.typeError ≠ PyError.unboundLocal "all_actions" :=
  ⟨rfl, by decide⟩

/-- C10 amended: every invocation with a `None` SQL argument fails with an
error and never produces an instance; when spans are supplied the failure is
the unbound-local error at the catalog loop (the locals bound only in the
SQL branch), and when spans are also `None` the failure occurs earlier, in
span normalization. -/
theorem c10_sql_none_always_fails (keep : Bool) (world : World)
    (tokenize : String → List String) (query : List String)
    (derived_cols : List (String × String)) (derived_tables : List String)
    (prelinked_entities : Option PrelinkedEntities) (spans : Option (List (Int × Int))) :
    (∃ e, text_to_instance keep world tokenize query derived_cols derived_tables
        prelinked_entities none spans = .error e) ∧
    (∀ l, spans = some l →
      text_to_instance keep world tokenize query derived_cols derived_tables
        prelinked_entities none spans = .error (.unboundLocal "all_actions")) := by
  cases spans with
  | none => exact ⟨⟨.typeError, rfl⟩, fun l h => by cases h⟩
  | some l => exact ⟨⟨.unboundLocal "all_actions", rfl⟩, fun l' h => rfl⟩

theorem c10_sql_none_always_fails_witness :
    text_to_instance false ⟨fun _ _ _ _ => (none, []), fun _ => false⟩ (fun _ => [])
      ["q"] [] [] none none (some []) = .error (.unboundLocal "all_actions") :=
  (c10_sql_none_always_fails false ⟨fun _ _ _ _ => (none, []), fun _ => false⟩ (fun _ => [])
    ["q"] [] [] none (some [])).2 [] rfl
